import Mathlib

/-!
Verification of the serde-describe schema-driven decode engine.

This file gives a shallow embedding, in Lean 4, of the schema data model
(`src/schema.rs`), the registry (`src/describe.rs`), and the schema-guided
decoder (`src/deserializer.rs`, with the seed-based engine of `src/seed.rs`),
and proves the behavioural properties claimed for them.

Embedding conventions:
* The repository is mid-refactor: `deserializer.rs` and `seed.rs` address
  sub-schemas directly as `Schema` values (e.g. `OptionVisitor.value: &Schema`,
  `field.value: &Schema`) and treat `VariantSchema` as an enum with
  Unit/Newtype/Tuple/Struct shapes, while `schema.rs` wraps sub-schemas in
  `SchemaItem` and makes `VariantSchema` a struct.  The decode-engine claims
  are settled against the engine's own view (plain `Schema` positions,
  enum-shaped variants); the registry claims use `SchemaItem` and
  `SchemaName` exactly as `schema.rs`/`describe.rs` declare them.
* Rust `Result`/serde errors become `Except String`; `Error::custom(msg)`
  becomes `Except.error msg` with the same message text.
* A `todo!()` in the source is an unconditional panic; it is modelled as a
  distinguished outcome, never as a successful decode.
* The underlying format decoder (an external collaborator) is abstracted:
  an underlying map access is a list of key/value entries, an underlying
  sequence access is a list of elements, and each engine request is modelled
  by the underlying call it dispatches (constructor of `UnderlyingCall`)
  together with the schema position it threads into the nested decode.
-/

/-- The 17 primitive kinds of `SimpleSchema` (src/schema.rs). -/
inductive SimpleSchema where
  | unit | bool
  | u8 | u16 | u32 | u64 | u128
  | i8 | i16 | i32 | i64 | i128
  | f32 | f64
  | char | string | bytes
  deriving DecidableEq

/-- Display of a `SimpleSchema`, from `impl Display for SimpleSchema`
(src/schema.rs lines 124-146). -/
def SimpleSchema.display : SimpleSchema → String
  | .unit => "unit"
  | .bool => "bool"
  | .u8 => "u8"
  | .u16 => "u16"
  | .u32 => "u32"
  | .u64 => "u64"
  | .u128 => "u128"
  | .i8 => "i8"
  | .i16 => "i16"
  | .i32 => "i32"
  | .i64 => "i64"
  | .i128 => "i128"
  | .f32 => "f32"
  | .f64 => "f64"
  | .char => "char"
  | .string => "string"
  | .bytes => "bytes"

/-- Enum representation conventions, from `EnumRepr` (src/schema.rs). -/
inductive EnumRepr where
  | externallyTagged
  | internallyTagged (tag : String)
  | adjacentlyTagged (tag : String) (content : String)
  deriving DecidableEq

/-- A qualified type name: base name plus ordered `SchemaName` arguments,
from `pub struct SchemaName(String, Vec<SchemaName>)` (src/schema.rs line 13). -/
inductive SchemaName where
  | mk (base : String) (args : List SchemaName)

mutual
def SchemaName.decEq : (a b : SchemaName) → Decidable (a = b)
  | .mk b1 a1, .mk b2 a2 =>
    if h : b1 = b2 then
      match SchemaName.decEqList a1 a2 with
      | isTrue h2 => isTrue (by rw [h, h2])
      | isFalse h2 => isFalse (by intro he; injection he; contradiction)
    else isFalse (by intro he; injection he; contradiction)

def SchemaName.decEqList : (a b : List SchemaName) → Decidable (a = b)
  | [], [] => isTrue rfl
  | [], _ :: _ => isFalse nofun
  | _ :: _, [] => isFalse nofun
  | x :: xs, y :: ys =>
    match SchemaName.decEq x y, SchemaName.decEqList xs ys with
    | isTrue h1, isTrue h2 => isTrue (by rw [h1, h2])
    | isFalse h1, _ => isFalse (by intro he; injection he; contradiction)
    | _, isFalse h2 => isFalse (by intro he; injection he; contradiction)
end

instance : DecidableEq SchemaName := SchemaName.decEq

mutual
/-- Rendering of a `SchemaName` as `Base<Arg1, Arg2>`, from
`impl Display for SchemaName` (src/schema.rs lines 26-37): the base name,
then, when arguments exist, `<` + first argument + `, ` + each further
argument + `>`. -/
def SchemaName.render : SchemaName → String
  | .mk base [] => base
  | .mk base (a :: as) =>
      base ++ "<" ++ SchemaName.render a ++ SchemaName.renderRest as ++ ">"

/-- Rendering of the second and further arguments (the `args.try_for_each`
loop of `impl Display for SchemaName`). -/
def SchemaName.renderRest : List SchemaName → String
  | [] => ""
  | a :: as => ", " ++ SchemaName.render a ++ SchemaName.renderRest as
end

/-- Parsing of a rendered `SchemaName`, from `impl FromStr for SchemaName`
(src/schema.rs lines 39-45).  The source body is the unimplemented stub
`todo!()`, which panics (message "not yet implemented") on every input;
the panic is modelled as an error. -/
def SchemaName.from_str (_s : String) : Except String SchemaName :=
  .error "not yet implemented"

mutual
/-- The schema node kinds, as the decode engine addresses them
(src/schema.rs `Schema`, with sub-schemas held directly as the
engine of src/deserializer.rs does). -/
inductive Schema where
  | simple (s : SimpleSchema) : Schema
  | option (value : Schema) : Schema
  | seq (value : Schema) : Schema
  | map (key : Schema) (value : Schema) : Schema
  | tuple (values : List Schema) : Schema
  | struct_ (name : String) (fields : List FieldSchema) : Schema
  | enum_ (name : String) (variants : List VariantSchema) (repr : EnumRepr) : Schema

/-- A named struct field: declared name and value schema (the `FieldSchema`
with `.name` and `.value` that src/deserializer.rs iterates over). -/
inductive FieldSchema where
  | mk (name : String) (value : Schema) : FieldSchema

/-- An enum variant, in the four shapes the engine matches on
(`VariantSchema::Unit/Newtype/Tuple/Struct` of src/deserializer.rs and
src/seed.rs), each carrying its declared name. -/
inductive VariantSchema where
  | unit (name : String) : VariantSchema
  | newtype (name : String) (value : Schema) : VariantSchema
  | tupleVariant (name : String) (values : List Schema) : VariantSchema
  | structVariant (name : String) (fields : List FieldSchema) : VariantSchema
end

/-- Projection: a field's declared name. -/
def FieldSchema.name : FieldSchema → String
  | .mk n _ => n

/-- Projection: a field's value schema. -/
def FieldSchema.value : FieldSchema → Schema
  | .mk _ v => v

/-- Projection: a variant's declared name (each of the four shapes carries
one, as matched in `ExternallyTaggedEnumVisitor::visit_map`). -/
def VariantSchema.name : VariantSchema → String
  | .unit n => n
  | .newtype n _ => n
  | .tupleVariant n _ => n
  | .structVariant n _ => n

/-- Either an inline schema or a named reference, from `SchemaItem`
(src/schema.rs lines 6-10). -/
inductive SchemaItem where
  | schema (s : Schema)
  | named (name : SchemaName)

/-- The schema registry: root item plus a name-to-schema mapping, from
`Description` (src/describe.rs lines 28-33).  The `BTreeMap` is modelled as
an association list; the claims proved below do not depend on key order. -/
structure Description where
  schema : SchemaItem
  items : List (SchemaName × Schema)

/-- Construction of an empty registry around a root item, from
`Description::new` (src/describe.rs lines 36-41). -/
def Description.new (schema : SchemaItem) : Description :=
  { schema := schema, items := [] }

/-- Registration of a name, from `Description::add` (src/describe.rs lines
43-45): `self.items.entry(name).or_insert_with(|| schema().into())` inserts
only if the name is absent, and only then evaluates the thunk. -/
def Description.add (d : Description) (name : SchemaName) (schema : Unit → Schema) :
    Description :=
  if d.items.any (fun item => item.1 == name) then d
  else { d with items := d.items ++ [(name, schema ())] }

/-- The list of registered names of a `Description`. -/
def Description.keys (d : Description) : List SchemaName :=
  d.items.map Prod.fst

/-- Enum decode representation choice, from `EnumFormat` (src/deserializer.rs). -/
inductive EnumFormat where
  | tuple
  | map
  deriving DecidableEq

/-- Struct decode representation choice, from `StructFormat` (src/deserializer.rs). -/
inductive StructFormat where
  | tuple
  | map
  deriving DecidableEq

/-- Decode configuration, from `DeserializerOptions` (src/deserializer.rs
lines 40-44). -/
structure DeserializerOptions where
  enum_format : EnumFormat
  struct_format : StructFormat
  borrowing : Bool

/-- The text preset, from `DeserializerOptions::text`. -/
def DeserializerOptions.text : DeserializerOptions :=
  { enum_format := .map, struct_format := .map, borrowing := false }

/-- The binary preset, from `DeserializerOptions::binary`. -/
def DeserializerOptions.binary : DeserializerOptions :=
  { enum_format := .tuple, struct_format := .tuple, borrowing := false }

/-- The structural kind of a schema position as named in type-mismatch
errors.  The deserializer formats errors with a `Kind` type whose definition
is not part of the sources (its closest relative is `Expected` in
src/schema.rs); modelled from the deserializer's usage sites
(`Kind::Simple(..)`, `Kind::Tuple`, `Kind::Seq`, `Kind::Map`, `Kind::Struct`,
`Kind::Enum`), which carry no payload for the structural kinds. -/
inductive Kind where
  | simple (s : SimpleSchema)
  | option
  | tuple
  | seq
  | map
  | struct_
  | enum_
  deriving DecidableEq

/-- Display of a `Kind`, following `impl Display for Expected`
(src/schema.rs lines 89-101) restricted to the payload-free constructors the
deserializer uses. -/
def Kind.render : Kind → String
  | .simple s => s.display
  | .option => "option"
  | .tuple => "tuple"
  | .seq => "sequence"
  | .map => "map"
  | .struct_ => "struct"
  | .enum_ => "enum"

/-- The structural kind of a schema position (the `s.kind()` the
deserializer calls when reporting a mismatch; the counterpart of
`Schema::expected`, src/schema.rs lines 76-87). -/
def Schema.kind : Schema → Kind
  | .simple s => .simple s
  | .option _ => .option
  | .seq _ => .seq
  | .map _ _ => .map
  | .tuple _ => .tuple
  | .struct_ _ _ => .struct_
  | .enum_ _ _ _ => .enum_

/-- The type-mismatch error message, from the
`format!("invalid type {..}, expected {..}")` calls of every
`SchemaDeserializer::deserialize_*` method: it names the schema position's
actual kind and the requested kind. -/
def mismatchMsg (actual expected : Kind) : String :=
  "invalid type " ++ actual.render ++ ", expected " ++ expected.render

/-- The action a `SchemaDeserializer` request resolves to: either the
underlying decoder call it dispatches (with the schema context threaded into
the nested visitor/cursor), or the engine-internal `visit_some` callback of
`deserialize_option`'s permissive branch. -/
inductive UnderlyingCall where
  | unit
  | bool
  | u8 | u16 | u32 | u64 | u128
  | i8 | i16 | i32 | i64 | i128
  | f32 | f64
  | char
  | str | string
  | bytes | byteBuf
  | option (inner : Schema)
  | visitSome (position : Schema)
  | seq (elem : Schema)
  | tuple (len : Nat) (values : List Schema)
  | map (key : Schema) (value : Schema)
  | structAsTuple (len : Nat) (fields : List FieldSchema)
  | structAsMap (fields : List FieldSchema)
  | enumAsTuple (len : Nat) (variants : List VariantSchema)
  | enumAsMapExternal (variants : List VariantSchema)
  | enumAsMapInternal (tag : String) (variants : List VariantSchema)
  | enumAsMapAdjacent (tag : String) (content : String) (variants : List VariantSchema)

/-- Translation of `SchemaDeserializer::deserialize_bool`
(src/deserializer.rs lines 254-266). -/
def deserialize_bool (schema : Schema) : Except String UnderlyingCall :=
  match schema with
  | .simple .bool => .ok .bool
  | s => .error (mismatchMsg s.kind (.simple .bool))

/-- Translation of `SchemaDeserializer::deserialize_i8`
(src/deserializer.rs lines 268-280). -/
def deserialize_i8 (schema : Schema) : Except String UnderlyingCall :=
  match schema with
  | .simple .i8 => .ok .i8
  | s => .error (mismatchMsg s.kind (.simple .i8))

/-- Translation of `SchemaDeserializer::deserialize_i16`
(src/deserializer.rs lines 282-295): an `I8` schema dispatches the
underlying `deserialize_i8`, an `I16` schema the underlying
`deserialize_i16`. -/
def deserialize_i16 (schema : Schema) : Except String UnderlyingCall :=
  match schema with
  | .simple .i8 => .ok .i8
  | .simple .i16 => .ok .i16
  | s => .error (mismatchMsg s.kind (.simple .i16))

/-- Translation of `SchemaDeserializer::deserialize_i32`
(src/deserializer.rs lines 297-311). -/
def deserialize_i32 (schema : Schema) : Except String UnderlyingCall :=
  match schema with
  | .simple .i8 => .ok .i8
  | .simple .i16 => .ok .i16
  | .simple .i32 => .ok .i32
  | s => .error (mismatchMsg s.kind (.simple .i32))

/-- Translation of `SchemaDeserializer::deserialize_i64`
(src/deserializer.rs lines 313-328). -/
def deserialize_i64 (schema : Schema) : Except String UnderlyingCall :=
  match schema with
  | .simple .i8 => .ok .i8
  | .simple .i16 => .ok .i16
  | .simple .i32 => .ok .i32
  | .simple .i64 => .ok .i64
  | s => .error (mismatchMsg s.kind (.simple .i64))

/-- Translation of `SchemaDeserializer::deserialize_i128`
(src/deserializer.rs lines 330-346). -/
def deserialize_i128 (schema : Schema) : Except String UnderlyingCall :=
  match schema with
  | .simple .i8 => .ok .i8
  | .simple .i16 => .ok .i16
  | .simple .i32 => .ok .i32
  | .simple .i64 => .ok .i64
  | .simple .i128 => .ok .i128
  | s => .error (mismatchMsg s.kind (.simple .i128))

/-- Translation of `SchemaDeserializer::deserialize_u8`
(src/deserializer.rs lines 348-360). -/
def deserialize_u8 (schema : Schema) : Except String UnderlyingCall :=
  match schema with
  | .simple .u8 => .ok .u8
  | s => .error (mismatchMsg s.kind (.simple .u8))

/-- Translation of `SchemaDeserializer::deserialize_u16`
(src/deserializer.rs lines 362-375). -/
def deserialize_u16 (schema : Schema) : Except String UnderlyingCall :=
  match schema with
  | .simple .u8 => .ok .u8
  | .simple .u16 => .ok .u16
  | s => .error (mismatchMsg s.kind (.simple .u16))

/-- Translation of `SchemaDeserializer::deserialize_u32`
(src/deserializer.rs lines 377-391). -/
def deserialize_u32 (schema : Schema) : Except String UnderlyingCall :=
  match schema with
  | .simple .u8 => .ok .u8
  | .simple .u16 => .ok .u16
  | .simple .u32 => .ok .u32
  | s => .error (mismatchMsg s.kind (.simple .u32))

/-- Translation of `SchemaDeserializer::deserialize_u64`
(src/deserializer.rs lines 393-408). -/
def deserialize_u64 (schema : Schema) : Except String UnderlyingCall :=
  match schema with
  | .simple .u8 => .ok .u8
  | .simple .u16 => .ok .u16
  | .simple .u32 => .ok .u32
  | .simple .u64 => .ok .u64
  | s => .error (mismatchMsg s.kind (.simple .u64))

/-- Translation of `SchemaDeserializer::deserialize_u128`
(src/deserializer.rs lines 410-426). -/
def deserialize_u128 (schema : Schema) : Except String UnderlyingCall :=
  match schema with
  | .simple .u8 => .ok .u8
  | .simple .u16 => .ok .u16
  | .simple .u32 => .ok .u32
  | .simple .u64 => .ok .u64
  | .simple .u128 => .ok .u128
  | s => .error (mismatchMsg s.kind (.simple .u128))

/-- Translation of `SchemaDeserializer::deserialize_f32`
(src/deserializer.rs lines 428-440). -/
def deserialize_f32 (schema : Schema) : Except String UnderlyingCall :=
  match schema with
  | .simple .f32 => .ok .f32
  | s => .error (mismatchMsg s.kind (.simple .f32))

/-- Translation of `SchemaDeserializer::deserialize_f64`
(src/deserializer.rs lines 442-455): an `F32` schema dispatches the
underlying `deserialize_f32`, an `F64` schema the underlying
`deserialize_f64`. -/
def deserialize_f64 (schema : Schema) : Except String UnderlyingCall :=
  match schema with
  | .simple .f32 => .ok .f32
  | .simple .f64 => .ok .f64
  | s => .error (mismatchMsg s.kind (.simple .f64))

/-- Translation of `SchemaDeserializer::deserialize_char`
(src/deserializer.rs lines 457-469). -/
def deserialize_char (schema : Schema) : Except String UnderlyingCall :=
  match schema with
  | .simple .char => .ok .char
  | s => .error (mismatchMsg s.kind (.simple .char))

/-- Translation of `SchemaDeserializer::deserialize_str`
(src/deserializer.rs lines 471-483). -/
def deserialize_str (schema : Schema) : Except String UnderlyingCall :=
  match schema with
  | .simple .string => .ok .str
  | s => .error (mismatchMsg s.kind (.simple .string))

/-- Translation of `SchemaDeserializer::deserialize_string`
(src/deserializer.rs lines 485-497). -/
def deserialize_string (schema : Schema) : Except String UnderlyingCall :=
  match schema with
  | .simple .string => .ok .string
  | s => .error (mismatchMsg s.kind (.simple .string))

/-- Translation of `SchemaDeserializer::deserialize_bytes`
(src/deserializer.rs lines 499-511). -/
def deserialize_bytes (schema : Schema) : Except String UnderlyingCall :=
  match schema with
  | .simple .bytes => .ok .bytes
  | s => .error (mismatchMsg s.kind (.simple .bytes))

/-- Translation of `SchemaDeserializer::deserialize_byte_buf`
(src/deserializer.rs lines 513-525). -/
def deserialize_byte_buf (schema : Schema) : Except String UnderlyingCall :=
  match schema with
  | .simple .bytes => .ok .byteBuf
  | s => .error (mismatchMsg s.kind (.simple .bytes))

/-- Translation of `SchemaDeserializer::deserialize_unit`
(src/deserializer.rs lines 527-539). -/
def deserialize_unit (schema : Schema) : Except String UnderlyingCall :=
  match schema with
  | .simple .unit => .ok .unit
  | s => .error (mismatchMsg s.kind (.simple .unit))

/-- Translation of `SchemaDeserializer::deserialize_option`
(src/deserializer.rs lines 541-553): an `Option` schema delegates to the
underlying decoder's option protocol with the inner schema threaded into the
`OptionVisitor`; every other schema position is handed to the target visitor
as a present value (`visitor.visit_some(self)`) at the unchanged position. -/
def deserialize_option (schema : Schema) : Except String UnderlyingCall :=
  match schema with
  | .option value => .ok (.option value)
  | s => .ok (.visitSome s)

/-- Translation of `SchemaDeserializer::deserialize_seq`
(src/deserializer.rs lines 586-602). -/
def deserialize_seq (schema : Schema) : Except String UnderlyingCall :=
  match schema with
  | .seq value => .ok (.seq value)
  | s => .error (mismatchMsg s.kind .seq)

/-- Translation of `SchemaDeserializer::deserialize_tuple`
(src/deserializer.rs lines 604-623): on a `Tuple` schema the underlying
decoder is asked for `s.values.len()` elements (the caller-requested `len`
is not consulted); any other schema position is a type mismatch. -/
def deserialize_tuple (len : Nat) (schema : Schema) : Except String UnderlyingCall :=
  match schema with
  | .tuple values => .ok (.tuple values.length values)
  | s => .error (mismatchMsg s.kind .tuple)

/-- Translation of `SchemaDeserializer::deserialize_map`
(src/deserializer.rs lines 652-669). -/
def deserialize_map (schema : Schema) : Except String UnderlyingCall :=
  match schema with
  | .map key value => .ok (.map key value)
  | s => .error (mismatchMsg s.kind .map)

/-- Translation of `SchemaDeserializer::deserialize_struct`
(src/deserializer.rs lines 671-702): on a `Struct` schema the representation
is chosen by the configuration (Tuple: underlying `deserialize_tuple` of the
field count with a `TupleStructVisitor`; Map: underlying `deserialize_map`
with a `MapStructVisitor`); any other schema position is a type mismatch. -/
def deserialize_struct (opts : DeserializerOptions) (name : String)
    (fields : List String) (schema : Schema) : Except String UnderlyingCall :=
  match schema with
  | .struct_ _sname sfields =>
      match opts.struct_format with
      | .tuple => .ok (.structAsTuple sfields.length sfields)
      | .map => .ok (.structAsMap sfields)
  | s => .error (mismatchMsg s.kind .struct_)

/-- Translation of `SchemaDeserializer::deserialize_enum`
(src/deserializer.rs lines 704-741): on an `Enum` schema the representation
is chosen by the configuration (Tuple: underlying `deserialize_tuple(2, ..)`
with a `TupleEnumVisitor`; Map: underlying `deserialize_map` with the
visitor matching the schema's `EnumRepr`); any other schema position is a
type mismatch. -/
def deserialize_enum (opts : DeserializerOptions) (name : String)
    (variantNames : List String) (schema : Schema) : Except String UnderlyingCall :=
  match schema with
  | .enum_ _ename variants repr =>
      match opts.enum_format with
      | .tuple => .ok (.enumAsTuple 2 variants)
      | .map =>
          match repr with
          | .externallyTagged => .ok (.enumAsMapExternal variants)
          | .internallyTagged tag => .ok (.enumAsMapInternal tag variants)
          | .adjacentlyTagged tag content => .ok (.enumAsMapAdjacent tag content variants)
  | s => .error (mismatchMsg s.kind .enum_)

/-- State of the keyed-cursor shim over a positional input, from
`TupleStructAccess` (src/deserializer.rs lines 982-987): the remaining
declared-field iterator, the pending value schema set by the last key
request, and the underlying sequence access (modelled as the list of
remaining positional slots of an arbitrary element type `V`). -/
structure TupleStructAccess (V : Type) where
  fields : List FieldSchema
  value : Option Schema
  seq : List V

/-- Translation of `TupleStructAccess::next_key_seed` (src/deserializer.rs
lines 994-1005): take the next declared field, remember its value schema,
and hand the target the field's declared name (synthesized through a
`StrDeserializer`, not read from the input); when the fields are exhausted,
report end of entries. -/
def TupleStructAccess.next_key_seed (a : TupleStructAccess V) :
    Except String (Option String × TupleStructAccess V) :=
  match a.fields with
  | [] => .ok (none, a)
  | field :: rest =>
      .ok (some field.name, { a with fields := rest, value := some field.value })

/-- Translation of `TupleStructAccess::next_value_seed` (src/deserializer.rs
lines 1007-1020): take the pending value schema (failing with the
cursor-misuse error when no key request preceded), then pull the next
positional slot from the underlying sequence, decoded against that schema.
An exhausted underlying sequence is reported as a missing value. -/
def TupleStructAccess.next_value_seed (a : TupleStructAccess V) :
    Except String ((Schema × V) × TupleStructAccess V) :=
  match a.value with
  | none => .error "invalid use of next_value_seed"
  | some schema =>
      match a.seq with
      | [] => .error "missing value"
      | v :: rest => .ok ((schema, v), { a with value := none, seq := rest })

/-- State of the by-name struct cursor, from `MapStructAccess`
(src/deserializer.rs lines 1049-1054): the declared field list, the pending
value schema, and the underlying map access (modelled as the list of
remaining entries, keys already strings as `next_key::<String>` requires,
values of an arbitrary type `V`). -/
structure MapStructAccess (V : Type) where
  fields : List FieldSchema
  value : Option Schema
  map : List (String × V)

/-- Translation of `MapStructAccess::next_key_seed` (src/deserializer.rs
lines 1059-1075): read the next key from the underlying map as a string,
match it by exact field name against the declared field list
(`fields.iter().find(|field| field.name == key)`), fail with the
"unknown field" error when no declared field matches, otherwise remember the
matched field's value schema and hand the key on.  The underlying entry's
value part stays in the underlying access until the paired
`next_value_seed`. -/
def MapStructAccess.next_key_seed (a : MapStructAccess V) :
    Except String (Option String × MapStructAccess V) :=
  match a.map with
  | [] => .ok (none, a)
  | (key, _) :: _ =>
      match a.fields.find? (fun field => field.name == key) with
      | none => .error "unknown field"
      | some field => .ok (some key, { a with value := some field.value })

/-- Translation of `MapStructAccess::next_value_seed` (src/deserializer.rs
lines 1077-1090): take the pending value schema (failing with the
cursor-misuse error when no key request preceded), then read the underlying
entry's value, decoded against that schema. -/
def MapStructAccess.next_value_seed (a : MapStructAccess V) :
    Except String ((Schema × V) × MapStructAccess V) :=
  match a.value with
  | none => .error "invalid use of next_value_seed"
  | some schema =>
      match a.map with
      | [] => .error "missing value"
      | (_, v) :: rest => .ok ((schema, v), { a with value := none, map := rest })

/-- The canonical keyed-cursor driving loop of a serde target visitor:
alternately request a key and its value until the cursor reports end of
entries, collecting each key together with the schema position and
underlying value handed to the nested decode.  The fuel argument bounds the
iteration; every use below supplies enough fuel for the whole input. -/
def driveMap {σ V : Type} (nextKey : σ → Except String (Option String × σ))
    (nextValue : σ → Except String ((Schema × V) × σ)) :
    Nat → σ → Except String (List (String × Schema × V))
  | 0, _ => .error "out of fuel"
  | fuel + 1, st =>
      match nextKey st with
      | .error e => .error e
      | .ok (none, _) => .ok []
      | .ok (some key, st1) =>
          match nextValue st1 with
          | .error e => .error e
          | .ok ((schema, v), st2) =>
              match driveMap nextKey nextValue fuel st2 with
              | .error e => .error e
              | .ok rest => .ok ((key, schema, v) :: rest)

/-- Decoding a struct in the Tuple representation: the target visitor drives
the `TupleStructAccess` cursor that `TupleStructVisitor::visit_seq`
(src/deserializer.rs lines 969-979) builds over the declared fields and the
underlying sequence. -/
def runTupleStruct (fields : List FieldSchema) (input : List V) :
    Except String (List (String × Schema × V)) :=
  driveMap TupleStructAccess.next_key_seed TupleStructAccess.next_value_seed
    (fields.length + 1) { fields := fields, value := none, seq := input }

/-- Decoding a struct in the Map representation: the target visitor drives
the `MapStructAccess` cursor that `MapStructVisitor::visit_map`
(src/deserializer.rs lines 1036-1046) builds over the declared fields and
the underlying map. -/
def runMapStruct (fields : List FieldSchema) (input : List (String × V)) :
    Except String (List (String × Schema × V)) :=
  driveMap MapStructAccess.next_key_seed MapStructAccess.next_value_seed
    (input.length + 1) { fields := fields, value := none, map := input }

/-- The value schema of the first declared field matching a key exactly by
name (the engine's `fields.iter().find(|field| field.name == key)`),
defaulting to the unit schema when no field matches (the default is never
reached on inputs the engine accepts). -/
def resolveField (fields : List FieldSchema) (key : String) : Schema :=
  ((fields.find? (fun field => field.name == key)).map FieldSchema.value).getD
    (.simple .unit)

/-- Outcome alphabet for the tuple-represented enum visitor: a decode error
with its message, or the unconditional panic of an unimplemented `todo!()`
stub in the source. -/
inductive EngineHalt where
  | err (msg : String)
  | todoStub
  deriving DecidableEq

/-- State of the single-entry keyed cursor a tuple-represented enum exposes,
from `TupleEnumAccess` (src/deserializer.rs lines 1147-1152): the pending
variant-name key, the pending payload schema, and the remaining underlying
sequence. -/
structure TupleEnumAccess (V : Type) where
  tag : Option String
  value : Option Schema
  seq : List V

/-- Translation of `TupleEnumAccess::next_key_seed` (src/deserializer.rs
lines 1157-1165): hand out the stored variant name once (through a
`StrDeserializer`), then report end of entries. -/
def TupleEnumAccess.next_key_seed (a : TupleEnumAccess V) :
    Except String (Option String × TupleEnumAccess V) :=
  match a.tag with
  | some tag => .ok (some tag, { a with tag := none })
  | none => .ok (none, a)

/-- Translation of `TupleEnumAccess::next_value_seed` (src/deserializer.rs
lines 1167-1180): take the pending payload schema (failing with the
cursor-misuse error when absent), then pull the payload from the next
underlying sequence slot. -/
def TupleEnumAccess.next_value_seed (a : TupleEnumAccess V) :
    Except String ((Schema × V) × TupleEnumAccess V) :=
  match a.value with
  | none => .error "invalid use of next_value_seed"
  | some schema =>
      match a.seq with
      | [] => .error "missing value"
      | v :: rest => .ok ((schema, v), { a with value := none, seq := rest })

/-- Translation of `TupleEnumVisitor::visit_seq` (src/deserializer.rs lines
1106-1144): read a positional index from the underlying sequence (`tag` is
the result of `next_element::<usize>()`, `none` when the sequence is
exhausted), fail with "missing tag" when there is none, select the variant
at that declaration position (`self.variants.get(tag)`), fail with
"invalid variant" when the index is out of range, and expose the selected
variant through a `TupleEnumAccess` keyed by the variant's name.  For a
Newtype variant the payload schema is the variant's value schema; the Unit,
Tuple and Struct arms build their payload schema with `todo!()`, an
unconditional panic. -/
def tupleEnumVisitSeq {V : Type} (variants : List VariantSchema)
    (tag : Option Nat) (rest : List V) :
    Except EngineHalt (List (String × Schema × V)) :=
  match tag with
  | none => .error (.err "missing tag")
  | some t =>
      match variants[t]? with
      | none => .error (.err "invalid variant")
      | some variant =>
          match variant with
          | .unit _ => .error .todoStub
          | .newtype name value =>
              (driveMap TupleEnumAccess.next_key_seed TupleEnumAccess.next_value_seed
                2 { tag := some name, value := some value, seq := rest }).mapError .err
          | .tupleVariant _ _ => .error .todoStub
          | .structVariant _ _ => .error .todoStub

/-- Translation of `U64EnumVisitor::visit_seq` (src/seed.rs lines 259-277),
the seed-based engine's tuple-represented enum: read a positional index
from the underlying sequence (`tag` is the result of
`next_element::<u64>()`, `none` when exhausted), fail with "missing tag"
when there is none, select the `(name, payload seed)` pair at that
declaration position, fail with the "invalid variant" error naming the index
when out of range, then pull the payload from the next underlying slot
(failing with "missing value" when the sequence ends) and produce the
single-entry map keyed by the variant's name.  The payload-seed type `S` is
abstract; `EnumSeed::new` (src/seed.rs lines 197-233) supplies one pair per
declared variant, in declaration order, named by the variant. -/
def u64EnumVisitSeq {S V : Type} (variants : List (String × S))
    (tag : Option Nat) (rest : List V) : Except String (String × S × V) :=
  match tag with
  | none => .error "missing tag"
  | some t =>
      match variants[t]? with
      | none => .error ("invalid variant: " ++ toString t)
      | some (name, seed) =>
          match rest with
          | [] => .error "missing value"
          | v :: _ => .ok (name, seed, v)

/-- The five signed/unsigned integer widths of the decode protocol. -/
inductive IntWidth where
  | w8 | w16 | w32 | w64 | w128
  deriving DecidableEq

/-- Bit count of a width. -/
def IntWidth.bits : IntWidth → Nat
  | .w8 => 8
  | .w16 => 16
  | .w32 => 32
  | .w64 => 64
  | .w128 => 128

/-- The signed `SimpleSchema` kind of each width. -/
def signedSchema : IntWidth → SimpleSchema
  | .w8 => .i8
  | .w16 => .i16
  | .w32 => .i32
  | .w64 => .i64
  | .w128 => .i128

/-- The unsigned `SimpleSchema` kind of each width. -/
def unsignedSchema : IntWidth → SimpleSchema
  | .w8 => .u8
  | .w16 => .u16
  | .w32 => .u32
  | .w64 => .u64
  | .w128 => .u128

/-- The underlying signed-integer call of each width. -/
def signedCall : IntWidth → UnderlyingCall
  | .w8 => .i8
  | .w16 => .i16
  | .w32 => .i32
  | .w64 => .i64
  | .w128 => .i128

/-- The underlying unsigned-integer call of each width. -/
def unsignedCall : IntWidth → UnderlyingCall
  | .w8 => .u8
  | .w16 => .u16
  | .w32 => .u32
  | .w64 => .u64
  | .w128 => .u128

/-- The engine's signed integer request of a given width
(`deserialize_i8` .. `deserialize_i128`). -/
def signedRequest : IntWidth → Schema → Except String UnderlyingCall
  | .w8 => deserialize_i8
  | .w16 => deserialize_i16
  | .w32 => deserialize_i32
  | .w64 => deserialize_i64
  | .w128 => deserialize_i128

/-- The engine's unsigned integer request of a given width
(`deserialize_u8` .. `deserialize_u128`). -/
def unsignedRequest : IntWidth → Schema → Except String UnderlyingCall
  | .w8 => deserialize_u8
  | .w16 => deserialize_u16
  | .w32 => deserialize_u32
  | .w64 => deserialize_u64
  | .w128 => deserialize_u128

/-- The declared signed width of a schema position, when it is a Simple
signed integer. -/
def Schema.signedIntWidth : Schema → Option IntWidth
  | .simple .i8 => some .w8
  | .simple .i16 => some .w16
  | .simple .i32 => some .w32
  | .simple .i64 => some .w64
  | .simple .i128 => some .w128
  | _ => none

/-- The declared unsigned width of a schema position, when it is a Simple
unsigned integer. -/
def Schema.unsignedIntWidth : Schema → Option IntWidth
  | .simple .u8 => some .w8
  | .simple .u16 => some .w16
  | .simple .u32 => some .w32
  | .simple .u64 => some .w64
  | .simple .u128 => some .w128
  | _ => none

/-- The exact-kind primitive requests of the decode protocol: unit, bool,
char, string (borrowed and owned entry points) and bytes (borrowed and
owned entry points). -/
inductive ExactReq where
  | unit | bool | char | str | string | bytes | byteBuf
  deriving DecidableEq

/-- The Simple schema kind an exact-kind request requires. -/
def ExactReq.simpleKind : ExactReq → SimpleSchema
  | .unit => .unit
  | .bool => .bool
  | .char => .char
  | .str => .string
  | .string => .string
  | .bytes => .bytes
  | .byteBuf => .bytes

/-- The underlying call an exact-kind request dispatches on success. -/
def ExactReq.call : ExactReq → UnderlyingCall
  | .unit => .unit
  | .bool => .bool
  | .char => .char
  | .str => .str
  | .string => .string
  | .bytes => .bytes
  | .byteBuf => .byteBuf

/-- The engine's exact-kind primitive request dispatcher. -/
def exactRequest : ExactReq → Schema → Except String UnderlyingCall
  | .unit => deserialize_unit
  | .bool => deserialize_bool
  | .char => deserialize_char
  | .str => deserialize_str
  | .string => deserialize_string
  | .bytes => deserialize_bytes
  | .byteBuf => deserialize_byte_buf

lemma exceptIsOk_ok {ε α : Type} (a : α) : (Except.ok a : Except ε α).isOk = true := rfl

lemma exceptIsOk_error {ε α : Type} (e : ε) :
    (Except.error e : Except ε α).isOk = false := rfl

lemma kind_eq_simple_iff (s : Schema) (k : SimpleSchema) :
    s.kind = Kind.simple k ↔ s = .simple k := by
  cases s <;> simp [Schema.kind]

lemma exactRequest_eq (r : ExactReq) (s : Schema) :
    exactRequest r s =
      if s.kind = Kind.simple r.simpleKind then .ok r.call
      else .error (mismatchMsg s.kind (.simple r.simpleKind)) := by
  cases s <;> cases r <;> first | rfl | (rename_i k; cases k <;> rfl)

/-- C1: integer widening.  A signed request of width `w` succeeds exactly on
a Simple signed schema of declared width at most `w`, dispatching the
underlying decoder at the schema's declared width, and an unsigned request
of width `w` succeeds exactly on a Simple unsigned schema of width at most
`w`; a signed request never succeeds on an unsigned schema nor vice versa,
narrowing never succeeds, and every non-accepted position yields the
type-mismatch error naming the actual and requested kinds. -/
theorem int_widening_characterization (w : IntWidth) (s : Schema) :
    (signedRequest w s =
      match s.signedIntWidth with
      | some v =>
          if v.bits ≤ w.bits then .ok (signedCall v)
          else .error (mismatchMsg s.kind (.simple (signedSchema w)))
      | none => .error (mismatchMsg s.kind (.simple (signedSchema w))))
    ∧ (unsignedRequest w s =
      match s.unsignedIntWidth with
      | some v =>
          if v.bits ≤ w.bits then .ok (unsignedCall v)
          else .error (mismatchMsg s.kind (.simple (unsignedSchema w)))
      | none => .error (mismatchMsg s.kind (.simple (unsignedSchema w))))
    ∧ (∀ v, (signedRequest w (.simple (signedSchema v))).isOk = decide (v.bits ≤ w.bits))
    ∧ (∀ v, (unsignedRequest w (.simple (unsignedSchema v))).isOk = decide (v.bits ≤ w.bits))
    ∧ (∀ v, (signedRequest w (.simple (unsignedSchema v))).isOk = false)
    ∧ (∀ v, (unsignedRequest w (.simple (signedSchema v))).isOk = false) := by
  refine ⟨?_, ?_, fun v => ?_, fun v => ?_, fun v => ?_, fun v => ?_⟩
  · cases w <;> cases s <;> first | rfl | (rename_i k; cases k <;> rfl)
  · cases w <;> cases s <;> first | rfl | (rename_i k; cases k <;> rfl)
  · cases w <;> cases v <;> rfl
  · cases w <;> cases v <;> rfl
  · cases w <;> cases v <;> rfl
  · cases w <;> cases v <;> rfl

/-- C7: exact-kind primitive requests (unit, bool, char, string and bytes,
each in both entry points).  The request succeeds, dispatching to the
underlying decoder, exactly when the schema position is the required Simple
kind; every other position yields the type-mismatch error message naming
the schema's actual kind and the requested kind. -/
theorem exact_primitive_characterization (r : ExactReq) (s : Schema) :
    (exactRequest r (.simple r.simpleKind) = .ok r.call)
    ∧ ((exactRequest r s).isOk = true ↔ s = .simple r.simpleKind)
    ∧ (s ≠ .simple r.simpleKind →
        exactRequest r s = .error (mismatchMsg s.kind (.simple r.simpleKind))) := by
  refine ⟨?_, ?_, fun h => ?_⟩
  · cases r <;> rfl
  · rw [exactRequest_eq]
    by_cases h : s.kind = Kind.simple r.simpleKind
    · rw [if_pos h]
      simp only [exceptIsOk_ok, true_iff]
      exact (kind_eq_simple_iff s r.simpleKind).1 h
    · rw [if_neg h]
      simp only [exceptIsOk_error]
      constructor
      · intro he; exact absurd he (by decide)
      · intro he; exact absurd ((kind_eq_simple_iff s r.simpleKind).2 he) h
  · rw [exactRequest_eq, if_neg]
    exact fun hk => h ((kind_eq_simple_iff s r.simpleKind).1 hk)

/-- Witness for C7 at a concrete input: a char request succeeds on a char
schema and fails on a u8 schema with the message naming both kinds. -/
theorem exact_primitive_characterization_witness :
    exactRequest .char (.simple .char) = .ok .char
    ∧ exactRequest .char (.simple .u8) = .error "invalid type u8, expected char" :=
  ⟨(exact_primitive_characterization .char (.simple .u8)).1,
   (exact_primitive_characterization .char (.simple .u8)).2.2
     (by intro h; injection h with h2; cases h2)⟩

/-- C9: float widening.  A 64-bit float request succeeds exactly on a Simple
F32 or F64 schema, dispatching the underlying decoder at the schema's
declared width; a 32-bit float request succeeds exactly on a Simple F32
schema; every other position yields the type-mismatch error. -/
theorem float_widening_characterization (s : Schema) :
    (deserialize_f32 (.simple .f32) = .ok .f32)
    ∧ (deserialize_f64 (.simple .f32) = .ok .f32)
    ∧ (deserialize_f64 (.simple .f64) = .ok .f64)
    ∧ ((deserialize_f32 s).isOk = true ↔ s = .simple .f32)
    ∧ ((deserialize_f64 s).isOk = true ↔ s = .simple .f32 ∨ s = .simple .f64)
    ∧ ((deserialize_f32 s).isOk = false →
        deserialize_f32 s = .error (mismatchMsg s.kind (.simple .f32)))
    ∧ ((deserialize_f64 s).isOk = false →
        deserialize_f64 s = .error (mismatchMsg s.kind (.simple .f64))) := by
  refine ⟨rfl, rfl, rfl, ?_, ?_, ?_, ?_⟩
  · cases s <;>
      first
        | (rename_i k; cases k <;> simp [deserialize_f32, exceptIsOk_ok, exceptIsOk_error])
        | simp [deserialize_f32, exceptIsOk_ok, exceptIsOk_error]
  · cases s <;>
      first
        | (rename_i k; cases k <;> simp [deserialize_f64, exceptIsOk_ok, exceptIsOk_error])
        | simp [deserialize_f64, exceptIsOk_ok, exceptIsOk_error]
  · cases s <;>
      first
        | (rename_i k; cases k <;> simp [deserialize_f32, exceptIsOk_ok, exceptIsOk_error])
        | simp [deserialize_f32, exceptIsOk_ok, exceptIsOk_error]
  · cases s <;>
      first
        | (rename_i k; cases k <;> simp [deserialize_f64, exceptIsOk_ok, exceptIsOk_error])
        | simp [deserialize_f64, exceptIsOk_ok, exceptIsOk_error]

/-- Witness for C9 at a concrete input: the 64-bit request widens a 32-bit
schema, the 32-bit request rejects a 64-bit schema (no narrowing), and a
bool schema is a type mismatch. -/
theorem float_widening_characterization_witness :
    deserialize_f64 (.simple .f32) = .ok .f32
    ∧ deserialize_f32 (.simple .f64) = .error "invalid type f64, expected f32"
    ∧ deserialize_f64 (.simple .bool) = .error "invalid type bool, expected f64" :=
  ⟨(float_widening_characterization (.simple .bool)).2.1,
   (float_widening_characterization (.simple .f64)).2.2.2.2.2.1 rfl,
   (float_widening_characterization (.simple .bool)).2.2.2.2.2.2 rfl⟩

/-- C5: option permissiveness.  On an Option schema the request delegates to
the underlying decoder's option protocol with the inner schema as the nested
position; on any other schema position the request still succeeds, treating
the value as present at the same, unchanged position. -/
theorem option_request_permissive (s : Schema) :
    (∀ v, s = .option v → deserialize_option s = .ok (.option v))
    ∧ ((∀ v, s ≠ .option v) → deserialize_option s = .ok (.visitSome s))
    ∧ (deserialize_option s).isOk = true := by
  refine ⟨fun v h => ?_, fun h => ?_, ?_⟩
  · subst h; rfl
  · cases s <;> first | (exact absurd rfl (h _)) | rfl
  · cases s <;> rfl

/-- Witness for C5 at concrete inputs: an Option-of-string schema delegates
with the inner schema; a plain u8 schema proceeds as a present value at the
unchanged position. -/
theorem option_request_permissive_witness :
    deserialize_option (.option (.simple .string)) = .ok (.option (.simple .string))
    ∧ deserialize_option (.simple .u8) = .ok (.visitSome (.simple .u8)) :=
  ⟨(option_request_permissive (.option (.simple .string))).1 _ rfl,
   (option_request_permissive (.simple .u8)).2.1 (fun _ h => nomatch h)⟩

/-- C10: the tuple request never validates the caller-requested arity.  The
result is independent of the requested length; on a Tuple schema the
underlying decoder is asked for the schema's own element count; only a
non-Tuple schema position fails, with a type-mismatch error. -/
theorem tuple_request_ignores_len (len1 len2 : Nat) (s : Schema)
    (values : List Schema) :
    (deserialize_tuple len1 s = deserialize_tuple len2 s)
    ∧ (deserialize_tuple len1 (.tuple values) = .ok (.tuple values.length values))
    ∧ ((deserialize_tuple len1 s).isOk = true ↔ ∃ vs, s = .tuple vs)
    ∧ ((∀ vs, s ≠ .tuple vs) →
        deserialize_tuple len1 s = .error (mismatchMsg s.kind .tuple)) := by
  refine ⟨rfl, rfl, ?_, fun h => ?_⟩
  · cases s <;> simp [deserialize_tuple, exceptIsOk_ok, exceptIsOk_error]
  · cases s <;> first | (exact absurd rfl (h _)) | rfl

/-- Witness for C10 at concrete inputs: requested arities 3 and 7 give the
same result on a 1-element Tuple schema (the schema's own count is used),
and a bool schema fails on schema grounds alone. -/
theorem tuple_request_ignores_len_witness :
    deserialize_tuple 3 (.tuple [.simple .u8]) = deserialize_tuple 7 (.tuple [.simple .u8])
    ∧ deserialize_tuple 3 (.tuple [.simple .u8]) = .ok (.tuple 1 [.simple .u8])
    ∧ deserialize_tuple 3 (.simple .bool) = .error "invalid type bool, expected tuple" :=
  ⟨(tuple_request_ignores_len 3 7 (.tuple [.simple .u8]) [.simple .u8]).1,
   (tuple_request_ignores_len 3 7 (.tuple [.simple .u8]) [.simple .u8]).2.1,
   (tuple_request_ignores_len 3 7 (.simple .bool) [.simple .u8]).2.2.2
     (fun _ h => nomatch h)⟩

lemma description_mem_keys_add (d : Description) (n : SchemaName) (f : Unit → Schema)
    (m : SchemaName) : m ∈ (d.add n f).keys ↔ (m ∈ d.keys ∨ m = n) := by
  unfold Description.add
  by_cases h : d.items.any (fun item => item.1 == n) = true
  · rw [if_pos h]
    obtain ⟨x, hx, hbeq⟩ := List.any_eq_true.1 h
    have hn : n ∈ d.keys := List.mem_map.2 ⟨x, hx, eq_of_beq hbeq⟩
    constructor
    · exact Or.inl
    · rintro (hm | rfl)
      · exact hm
      · exact hn
  · rw [if_neg h]
    simp [Description.keys]

lemma description_nodup_keys_add (d : Description) (n : SchemaName) (f : Unit → Schema)
    (hd : d.keys.Nodup) : (d.add n f).keys.Nodup := by
  unfold Description.add
  by_cases h : d.items.any (fun item => item.1 == n) = true
  · rwa [if_pos h]
  · rw [if_neg h]
    have hn : n ∉ d.keys := by
      intro hmem
      obtain ⟨x, hx, hfst⟩ := List.mem_map.1 hmem
      exact h (List.any_eq_true.2 ⟨x, hx, by rw [hfst]; exact beq_self_eq_true n⟩)
    simp only [Description.keys, List.map_append, List.map_cons, List.map_nil,
      List.nodup_append]
    exact ⟨hd, List.nodup_singleton n, by
      intro a ha hb
      rw [List.mem_singleton] at hb
      exact hn (hb ▸ ha)⟩

/-- C4: registration is idempotent.  Adding a name that is already present
leaves the `Description` unchanged whatever thunk is supplied (so the second
thunk is never consulted), and folding any sequence of registrations over a
registry with duplicate-free keys yields duplicate-free keys containing
exactly the old keys and the registered names — one entry per distinct
name, however many times a name is reached. -/
theorem description_add_idempotent :
    (∀ (d : Description) (n : SchemaName) (f g : Unit → Schema),
      (d.add n g).add n f = d.add n g)
    ∧ (∀ (regs : List (SchemaName × (Unit → Schema))) (d : Description),
      d.keys.Nodup →
      ((regs.foldl (fun acc r => acc.add r.1 r.2) d).keys.Nodup
        ∧ ∀ n, n ∈ (regs.foldl (fun acc r => acc.add r.1 r.2) d).keys ↔
            (n ∈ d.keys ∨ n ∈ regs.map Prod.fst))) := by
  constructor
  · intro d n f g
    have hmem : (d.add n g).items.any (fun item => item.1 == n) = true := by
      have : n ∈ (d.add n g).keys := (description_mem_keys_add d n g n).2 (Or.inr rfl)
      obtain ⟨x, hx, hfst⟩ := List.mem_map.1 this
      exact List.any_eq_true.2 ⟨x, hx, by rw [hfst]; exact beq_self_eq_true n⟩
    show (if _ then _ else _) = _
    rw [if_pos hmem]
  · intro regs
    induction regs with
    | nil =>
        intro d hd
        exact ⟨hd, fun n => by simp⟩
    | cons r rs ih =>
        intro d hd
        have step := ih (d.add r.1 r.2) (description_nodup_keys_add d r.1 r.2 hd)
        refine ⟨step.1, fun n => ?_⟩
        rw [List.foldl_cons, step.2 n, description_mem_keys_add]
        simp only [List.map_cons, List.mem_cons]
        tauto

/-- Witness for C4 at concrete inputs: re-registering the name `MyStruct`
with a different thunk is a no-op, and a fold that reaches `MyStruct` twice
still has duplicate-free keys. -/
theorem description_add_idempotent_witness :
    (((Description.new (.named (.mk "MyStruct" []))).add (.mk "MyStruct" [])
        (fun _ => .simple .unit)).add (.mk "MyStruct" []) (fun _ => .simple .bool)
      = (Description.new (.named (.mk "MyStruct" []))).add (.mk "MyStruct" [])
        (fun _ => .simple .unit))
    ∧ ([((SchemaName.mk "MyStruct" [], fun _ => Schema.simple .unit)),
        ((SchemaName.mk "MyEnum" [], fun _ => Schema.simple .bool)),
        ((SchemaName.mk "MyStruct" [], fun _ => Schema.simple .char))].foldl
          (fun acc r => acc.add r.1 r.2)
          (Description.new (.named (.mk "MyStruct" [])))).keys.Nodup :=
  ⟨description_add_idempotent.1 _ _ _ _,
   (description_add_idempotent.2 _ (Description.new (.named (.mk "MyStruct" [])))
     (by simp [Description.new, Description.keys])).1⟩

/-- C6: the schema graph does not round-trip through its serialized form in
the current code.  `SchemaName` serializes through its `Base<Arg1, Arg2>`
rendering (first conjunct), but its `FromStr` counterpart — through which
every serialized `SchemaName` of a persisted `Description` must be read
back — is the unimplemented stub `todo!()`, which panics on every input
(second conjunct), so no serialized `Description` containing a `SchemaName`
can be deserialized at all. -/
theorem schemaName_roundtrip_unimplemented :
    SchemaName.render (.mk "MyStruct" [.mk "MyEnum" []]) = "MyStruct<MyEnum>"
    ∧ SchemaName.from_str "MyStruct<MyEnum>" = .error "not yet implemented" :=
  ⟨rfl, rfl⟩

lemma runMapStruct_spec {V : Type} (fields : List FieldSchema)
    (input : List (String × V)) :
    runMapStruct fields input =
      if (∀ kv ∈ input, ((fields.find? (fun field => field.name == kv.1)).isSome = true))
      then .ok (input.map (fun kv => (kv.1, resolveField fields kv.1, kv.2)))
      else .error "unknown field" := by
  induction input with
  | nil => simp [runMapStruct, driveMap, MapStructAccess.next_key_seed]
  | cons kv rest ih =>
      obtain ⟨k, v⟩ := kv
      cases hf : List.find? (fun field => field.name == k) fields with
      | none =>
          have hcond : ¬ (∀ kv ∈ (k, v) :: rest,
              ((fields.find? (fun field => field.name == kv.1)).isSome = true)) := by
            intro hall
            have hh := hall (k, v) (List.mem_cons_self _ _)
            rw [hf] at hh
            simp at hh
          rw [if_neg hcond]
          simp only [runMapStruct, List.length_cons]
          rw [driveMap.eq_2]
          simp only [MapStructAccess.next_key_seed, hf]
      | some f =>
          have hstep : runMapStruct fields ((k, v) :: rest) =
              match runMapStruct fields rest with
              | .error e => .error e
              | .ok out => .ok ((k, f.value, v) :: out) := by
            simp only [runMapStruct, List.length_cons]
            rw [driveMap.eq_2]
            simp only [MapStructAccess.next_key_seed, hf, MapStructAccess.next_value_seed]
          rw [hstep, ih]
          by_cases hall : (∀ kv ∈ rest,
              ((fields.find? (fun field => field.name == kv.1)).isSome = true))
          · rw [if_pos hall, if_pos (by
              intro kv hkv
              rcases List.mem_cons.1 hkv with rfl | hkv
              · rw [hf]; rfl
              · exact hall kv hkv)]
            simp [resolveField, hf]
          · rw [if_neg hall, if_neg (by
              intro hcons
              exact hall (fun kv hkv => hcons kv (List.mem_cons_of_mem _ hkv)))]

/-- C2: the Map struct representation resolves fields by exact name,
independently of input key order.  Driving the `MapStructAccess` cursor
succeeds exactly when every input key matches a declared field name — in
particular for any permutation of the declared fields — with each matched
field's value schema becoming the position for the value that follows, and
fails with the "unknown field" error as soon as a key matches no declared
field; the struct request itself dispatches the declared fields into this
cursor under the Map configuration. -/
theorem map_struct_resolves_by_name (V : Type) (fields : List FieldSchema)
    (input : List (String × V)) :
    (runMapStruct fields input =
      if (∀ kv ∈ input, ((fields.find? (fun field => field.name == kv.1)).isSome = true))
      then .ok (input.map (fun kv => (kv.1, resolveField fields kv.1, kv.2)))
      else .error "unknown field")
    ∧ (List.Perm (input.map Prod.fst) (fields.map FieldSchema.name) →
        ∃ out, runMapStruct fields input = .ok out)
    ∧ (∀ (opts : DeserializerOptions) (rname : String) (rfields : List String)
        (sname : String),
        opts.struct_format = StructFormat.map →
        deserialize_struct opts rname rfields (.struct_ sname fields)
          = .ok (.structAsMap fields)) := by
  refine ⟨runMapStruct_spec fields input, fun hperm => ?_, fun opts rname rfields sname h => ?_⟩
  · rw [runMapStruct_spec fields input, if_pos ?_]
    · exact ⟨_, rfl⟩
    · intro kv hkv
      have hk : kv.1 ∈ fields.map FieldSchema.name :=
        hperm.mem_iff.1 (List.mem_map.2 ⟨kv, hkv, rfl⟩)
      obtain ⟨f, hfmem, hfname⟩ := List.mem_map.1 hk
      exact List.find?_isSome.2 ⟨f, hfmem, by rw [hfname]; exact beq_self_eq_true kv.1⟩
  · cases opts with
    | mk ef sf b => cases h; rfl

/-- Witness for C2 at the spec's concrete examples: fields
`[name: string, age: u64]` decoded from the map `[age, name]` (keys out of
declaration order) succeed with each value decoded at its field's schema,
the permuted key set is accepted, the Map-configured struct request
dispatches the declared fields, and the undeclared key `extra` fails with
the "unknown field" error. -/
theorem map_struct_resolves_by_name_witness :
    runMapStruct [⟨"name", .simple .string⟩, ⟨"age", .simple .u64⟩]
      [("age", (30 : Nat)), ("name", 0)]
      = .ok [("age", .simple .u64, 30), ("name", .simple .string, 0)]
    ∧ (∃ out, runMapStruct [⟨"name", .simple .string⟩, ⟨"age", .simple .u64⟩]
        [("age", (30 : Nat)), ("name", 0)] = .ok out)
    ∧ deserialize_struct .text "MyStruct" []
        (.struct_ "MyStruct" [⟨"name", .simple .string⟩, ⟨"age", .simple .u64⟩])
      = .ok (.structAsMap [⟨"name", .simple .string⟩, ⟨"age", .simple .u64⟩])
    ∧ runMapStruct (V := Nat) [⟨"name", .simple .string⟩, ⟨"age", .simple .u64⟩]
        [("name", 0), ("extra", 1)] = .error "unknown field" := by
  have h := map_struct_resolves_by_name Nat
    [⟨"name", .simple .string⟩, ⟨"age", .simple .u64⟩] [("age", 30), ("name", 0)]
  refine ⟨?_, h.2.1 (by decide), h.2.2 .text "MyStruct" [] "MyStruct" rfl, ?_⟩
  · rw [h.1]
    rfl
  · rw [(map_struct_resolves_by_name Nat _ _).1]
    rfl

lemma runTupleStruct_spec {V : Type} :
    ∀ (fields : List FieldSchema) (input : List V), fields.length ≤ input.length →
    runTupleStruct fields input =
      .ok (List.zipWith (fun f v => (f.name, f.value, v)) fields input) := by
  intro fields
  induction fields with
  | nil =>
      intro input h
      simp only [runTupleStruct, List.length_nil, Nat.zero_add]
      rw [driveMap.eq_2]
      simp [TupleStructAccess.next_key_seed]
  | cons f fs ih =>
      intro input h
      cases input with
      | nil => simp at h
      | cons v vs =>
          have hlen : fs.length ≤ vs.length := by simpa using h
          have hrec := ih vs hlen
          simp only [runTupleStruct] at hrec ⊢
          simp only [List.length_cons]
          rw [driveMap.eq_2]
          simp only [TupleStructAccess.next_key_seed, TupleStructAccess.next_value_seed]
          rw [hrec]
          simp [List.zipWith]

/-- C8: the Tuple struct representation decodes fields positionally in
declared order while presenting a keyed cursor.  With enough positional
slots, driving the `TupleStructAccess` cursor yields, for each declared
field in order, its synthesized declared name as the key (never read from
the input) paired with the next positional slot decoded at that field's
schema; requesting a value with no pending key fails with the cursor-misuse
error; and the struct request dispatches the declared fields positionally
under the Tuple configuration. -/
theorem tuple_struct_positional (V : Type) :
    (∀ (fields : List FieldSchema) (input : List V), fields.length ≤ input.length →
      runTupleStruct fields input =
        .ok (List.zipWith (fun f v => (f.name, f.value, v)) fields input))
    ∧ (∀ a : TupleStructAccess V, a.value = none →
        a.next_value_seed = .error "invalid use of next_value_seed")
    ∧ (∀ (opts : DeserializerOptions) (rname : String) (rfields : List String)
        (sname : String) (fields : List FieldSchema),
        opts.struct_format = StructFormat.tuple →
        deserialize_struct opts rname rfields (.struct_ sname fields)
          = .ok (.structAsTuple fields.length fields)) := by
  refine ⟨runTupleStruct_spec, fun a h => ?_, fun opts rname rfields sname fields h => ?_⟩
  · unfold TupleStructAccess.next_value_seed
    rw [h]
  · cases opts with
    | mk ef sf b => cases h; rfl

/-- Witness for C8 at the spec's concrete example: fields
`[name: string, age: u64]` against the positional input `[10, 20]` give the
synthesized keys in declared order with positionally pulled values; a
cursor with no pending key rejects a value request; the Tuple-configured
struct request dispatches positionally. -/
theorem tuple_struct_positional_witness :
    runTupleStruct [⟨"name", .simple .string⟩, ⟨"age", .simple .u64⟩] [(10 : Nat), 20]
      = .ok [("name", .simple .string, 10), ("age", .simple .u64, 20)]
    ∧ (TupleStructAccess.mk [] none ([] : List Nat)).next_value_seed
      = .error "invalid use of next_value_seed"
    ∧ deserialize_struct .binary "MyStruct" []
        (.struct_ "MyStruct" [⟨"name", .simple .string⟩, ⟨"age", .simple .u64⟩])
      = .ok (.structAsTuple 2 [⟨"name", .simple .string⟩, ⟨"age", .simple .u64⟩]) :=
  ⟨(tuple_struct_positional Nat).1 _ _ (by decide),
   (tuple_struct_positional Nat).2.1 _ rfl,
   (tuple_struct_positional Nat).2.2 .binary "MyStruct" [] "MyStruct" _ rfl⟩

/-- C3: tuple-represented enums select the variant by positional index.
Both engines first read a positional numeric index: a missing index fails
with "missing tag" and an index at or beyond the variant count fails with
the invalid-variant error.  An in-range index selects the variant at that
declaration position; the seed-based engine (`U64EnumVisitor`) exposes any
selected variant's payload as a single-entry keyed cursor keyed by the
variant's name, while the `SchemaDeserializer` engine (`TupleEnumVisitor`)
does so only for Newtype variants — its Unit, Tuple and Struct arms are
unimplemented `todo!()` stubs that panic instead of exposing a payload.
The enum request dispatches into this representation under the Tuple
configuration. -/
theorem tuple_enum_by_index (S V : Type) :
    (∀ (variants : List (String × S)) (rest : List V),
      u64EnumVisitSeq variants none rest = .error "missing tag")
    ∧ (∀ (variants : List (String × S)) (t : Nat) (rest : List V),
        variants.length ≤ t →
        u64EnumVisitSeq variants (some t) rest
          = .error ("invalid variant: " ++ toString t))
    ∧ (∀ (variants : List (String × S)) (t : Nat) (name : String) (seed : S)
        (v : V) (rest : List V),
        variants[t]? = some (name, seed) →
        u64EnumVisitSeq variants (some t) (v :: rest) = .ok (name, seed, v))
    ∧ (∀ (variants : List VariantSchema) (rest : List V),
        tupleEnumVisitSeq variants none rest = .error (.err "missing tag"))
    ∧ (∀ (variants : List VariantSchema) (t : Nat) (rest : List V),
        variants.length ≤ t →
        tupleEnumVisitSeq variants (some t) rest = .error (.err "invalid variant"))
    ∧ (∀ (variants : List VariantSchema) (t : Nat) (name : String) (value : Schema)
        (v : V) (rest : List V),
        variants[t]? = some (.newtype name value) →
        tupleEnumVisitSeq variants (some t) (v :: rest) = .ok [(name, value, v)])
    ∧ (∀ (variants : List VariantSchema) (t : Nat) (name : String) (rest : List V),
        variants[t]? = some (.unit name) →
        tupleEnumVisitSeq variants (some t) rest = .error .todoStub)
    ∧ (∀ (variants : List VariantSchema) (t : Nat) (name : String)
        (values : List Schema) (rest : List V),
        variants[t]? = some (.tupleVariant name values) →
        tupleEnumVisitSeq variants (some t) rest = .error .todoStub)
    ∧ (∀ (variants : List VariantSchema) (t : Nat) (name : String)
        (fs : List FieldSchema) (rest : List V),
        variants[t]? = some (.structVariant name fs) →
        tupleEnumVisitSeq variants (some t) rest = .error .todoStub)
    ∧ (∀ (opts : DeserializerOptions) (rname : String) (rvariants : List String)
        (ename : String) (variants : List VariantSchema) (repr : EnumRepr),
        opts.enum_format = EnumFormat.tuple →
        deserialize_enum opts rname rvariants (.enum_ ename variants repr)
          = .ok (.enumAsTuple 2 variants)) := by
  refine ⟨fun variants rest => rfl,
    fun variants t rest h => ?_,
    fun variants t name seed v rest h => ?_,
    fun variants rest => rfl,
    fun variants t rest h => ?_,
    fun variants t name value v rest h => ?_,
    fun variants t name rest h => ?_,
    fun variants t name values rest h => ?_,
    fun variants t name fs rest h => ?_,
    fun opts rname rvariants ename variants repr h => ?_⟩
  · simp [u64EnumVisitSeq, List.getElem?_eq_none h]
  · simp [u64EnumVisitSeq, h]
  · simp [tupleEnumVisitSeq, List.getElem?_eq_none h]
  · simp only [tupleEnumVisitSeq, h]
    rw [driveMap.eq_2]
    simp only [TupleEnumAccess.next_key_seed, TupleEnumAccess.next_value_seed]
    rw [driveMap.eq_2]
    rfl
  · simp [tupleEnumVisitSeq, h]
  · simp [tupleEnumVisitSeq, h]
  · simp [tupleEnumVisitSeq, h]
  · cases opts with
    | mk ef sf b => cases h; rfl

/-- Witness for C3 at concrete inputs: index 1 selects the second declared
variant in the seed-based engine, index 5 is out of range, a Newtype variant
at index 0 exposes its payload keyed by name in the deserializer engine, and
the Tuple-configured enum request dispatches the variants. -/
theorem tuple_enum_by_index_witness :
    u64EnumVisitSeq [("A", (0 : Nat)), ("B", 1)] (some 1) [(99 : Nat)]
      = .ok ("B", 1, 99)
    ∧ u64EnumVisitSeq (S := Nat) (V := Nat) [("A", 0)] (some 5) []
      = .error "invalid variant: 5"
    ∧ u64EnumVisitSeq (S := Nat) (V := Nat) [("A", 0)] none [] = .error "missing tag"
    ∧ tupleEnumVisitSeq [.newtype "B" (.simple .u8)] (some 0) [(42 : Nat)]
      = .ok [("B", .simple .u8, 42)]
    ∧ deserialize_enum .binary "E" [] (.enum_ "E" [.unit "A"] .externallyTagged)
      = .ok (.enumAsTuple 2 [.unit "A"]) := by
  obtain ⟨h1, h2, h3, h4, h5, h6, h7, h8, h9, h10⟩ := tuple_enum_by_index Nat Nat
  exact ⟨h3 _ 1 "B" 1 99 [] rfl, h2 _ 5 [] (by decide), h1 _ [],
    h6 _ 0 "B" (.simple .u8) 42 [] rfl, h10 .binary "E" [] "E" _ .externallyTagged rfl⟩

/-- C3 counterexample to the claim as stated: in the `SchemaDeserializer`
tuple engine, an in-range index selecting a Unit variant does not expose the
variant's payload as a keyed cursor — the `todo!()` stub panics instead, so
the universally quantified payload-exposure sentence fails at this concrete
input (variant list `[Unit "A"]`, index `0`, one remaining slot). -/
theorem tuple_enum_unit_variant_stub :
    tupleEnumVisitSeq (V := Unit) [.unit "A"] (some 0) [()] = .error .todoStub := rfl
